import Mathlib

/-!
Verification of the element-addressing and snapshot-cache core of
`agent_browser_mcp`: the `RefCacheManager` class (`src/utils/ref-cache.ts`)
and the ref resolver (`src/utils/ref-resolver.ts`, functions `parseRef`,
`locatorFromRef`, `resolveRef`).  TypeScript records are embedded as
association lists (JavaScript objects preserve insertion order for
non-index string keys such as `e1`, `e2`, ...), machine numbers as `Nat`,
thrown errors as `Except`, and the lazily evaluated Playwright `Locator`
as a small query syntax together with an evaluation function over an
explicit page model.
-/

set_option autoImplicit false

namespace AgentBrowser

/-- `RefData` from `src/utils/ref-cache.ts`: the per-ref element
descriptor (`selector`, `role`, optional `name`, optional `nth`). -/
structure RefData where
  selector : String
  role : String
  name : Option String := none
  nth : Option Nat := none
deriving DecidableEq

/-- `RefMap` (from `src/browser/snapshot.ts`): a record from ref id to
`RefData`, embedded as an insertion-ordered association list. -/
abbrev RefMap := List (String × RefData)

/-- Record lookup `refMap[refId]` (first binding wins; keys of a real
table are unique). -/
def lookupRef (m : RefMap) (refId : String) : Option RefData :=
  match m with
  | [] => none
  | (k, v) :: rest => if k = refId then some v else lookupRef rest refId

/-- `Object.keys(refMap)`: the keys in insertion order. -/
def keysOf (m : RefMap) : List String :=
  m.map Prod.fst

/-- The JS membership test `refId in refs`. -/
def containsRef (m : RefMap) (refId : String) : Bool :=
  match m with
  | [] => false
  | (k, _) :: rest => k = refId || containsRef rest refId

/-- The state of a `RefCacheManager` instance: the private fields
`refs` and `version` of the class in `src/utils/ref-cache.ts`. -/
structure RefCacheManager where
  refs : RefMap := []
  version : Nat := 0
deriving DecidableEq

/-- `updateRefs(refs)`: `this.refs = refs; this.version++`. -/
def RefCacheManager.updateRefs (c : RefCacheManager) (refs : RefMap) :
    RefCacheManager :=
  { refs := refs, version := c.version + 1 }

/-- `get(refId)`: `this.refs[refId] || null` (the stored values are
objects, hence truthy whenever present). -/
def RefCacheManager.get (c : RefCacheManager) (refId : String) :
    Option RefData :=
  lookupRef c.refs refId

/-- `isValid(refId)`: `refId in this.refs`. -/
def RefCacheManager.isValid (c : RefCacheManager) (refId : String) : Bool :=
  containsRef c.refs refId

/-- `getAvailable()`: `Object.keys(this.refs)`. -/
def RefCacheManager.getAvailable (c : RefCacheManager) : List String :=
  keysOf c.refs

/-- `getVersion()`: returns the version counter. -/
def RefCacheManager.getVersion (c : RefCacheManager) : Nat :=
  c.version

/-- `invalidate()`: `this.refs = {}; this.version = 0`. -/
def RefCacheManager.invalidate (c : RefCacheManager) : RefCacheManager :=
  { refs := [], version := 0 }

/-- `getRefMap()`: `{ ...this.refs }` — a shallow copy, which has the
same value as the stored table. -/
def RefCacheManager.getRefMap (c : RefCacheManager) : RefMap :=
  c.refs

/-- Matching of the regex body `e\d+` (an `e` followed by one or more
digits), returning the matched characters. -/
def parseRefCore (cs : List Char) : Option (List Char) :=
  match cs with
  | c :: d :: ds =>
      if c = 'e' ∧ (d :: ds).all Char.isDigit then some (c :: d :: ds)
      else none
  | _ => none

/-- The `@?` part of the regex `^@?(e\d+)$`: an optional leading `@` is
consumed (the capture group never starts with `@`). -/
def stripAt (cs : List Char) : List Char :=
  match cs with
  | c :: rest => if c = '@' then rest else c :: rest
  | [] => []

/-- `parseRef(ref)` from `src/utils/ref-resolver.ts`:
`ref.match(/^@?(e\d+)$/)` returning the first capture group, or `null`. -/
def parseRef (ref : String) : Option String :=
  (parseRefCore (stripAt ref.data)).map (fun cs => String.mk cs)

/-- The Playwright locator value built by `locatorFromRef`, embedded as
the syntax of the query the code constructs. -/
inductive Locator where
  | selector (css : String)
  | byRole (role : String)
  | filterHasText (base : Locator) (text : String)
  | nth (base : Locator) (index : Nat)
deriving DecidableEq

/-- `refData.role === 'clickable' || refData.role === 'focusable'`. -/
def isSentinelRole (role : String) : Bool :=
  role = "clickable" || role = "focusable"

/-- `locatorFromRef(page, refData)` from `src/utils/ref-resolver.ts`.
The name guard `if (refData.name)` is JS truthiness: it is taken only
when `name` is present and non-empty; the ordinal guard
`if (refData.nth !== undefined)` is presence alone. -/
def locatorFromRef (refData : RefData) : Locator :=
  if isSentinelRole refData.role then
    .selector refData.selector
  else
    let l0 := Locator.byRole refData.role
    let l1 := match refData.name with
      | some n => if n = "" then l0 else .filterHasText l0 n
      | none => l0
    match refData.nth with
    | some k => .nth l1 k
    | none => l1

/-- The two error kinds thrown by `resolveRef`, with their payloads (the
offending token, and for a miss the `available` list the code computes
before building the message). -/
inductive ResolveError where
  | invalidRefFormat (ref : String)
  | refNotFound (ref : String) (available : List String)
deriving DecidableEq

/-- The exact message strings of the two `throw new Error(...)` sites in
`resolveRef`. -/
def ResolveError.message : ResolveError → String
  | .invalidRefFormat ref =>
      "Invalid ref format: \"" ++ ref ++
        "\". Refs must be in format \"e1\" or \"@e1\"."
  | .refNotFound ref available =>
      "Ref \"" ++ ref ++ "\" not found. Available refs: " ++
        String.intercalate ", " (available.take 10) ++
        (if available.length > 10 then "..." else "")

/-- Lexicographic comparison of character lists by code point, the JS
default sort comparison for (ASCII) strings. -/
def charListLe : List Char → List Char → Bool
  | [], _ => true
  | _ :: _, [] => false
  | a :: as, b :: bs =>
      if a.toNat < b.toNat then true
      else if b.toNat < a.toNat then false
      else charListLe as bs

/-- String comparison used by the JS default `Array.prototype.sort`. -/
def strLe (a b : String) : Bool :=
  charListLe a.data b.data

/-- `Object.keys(refMap).sort()`: the keys sorted by the JS default
comparison, i.e. lexicographic string order. -/
def sortedKeys (m : RefMap) : List String :=
  List.insertionSort (fun a b => strLe a b = true) (keysOf m)

/-- `resolveRef(page, ref, refMap)` from `src/utils/ref-resolver.ts`:
parse, look up the bare key, and either throw or return the locator. -/
def resolveRef (ref : String) (refMap : RefMap) :
    Except ResolveError Locator :=
  match parseRef ref with
  | none => .error (.invalidRefFormat ref)
  | some refId =>
      match lookupRef refMap refId with
      | none => .error (.refNotFound ref (sortedKeys refMap))
      | some refData => .ok (locatorFromRef refData)

/-- Recognizer for the `InvalidRefFormat` outcome of `resolveRef`. -/
def isInvalidFormatErr : Except ResolveError Locator → Bool
  | .error (.invalidRefFormat _) => true
  | _ => false

/-- Recognizer for the `RefNotFound` outcome of `resolveRef`. -/
def isRefNotFoundErr : Except ResolveError Locator → Bool
  | .error (.refNotFound _ _) => true
  | _ => false

/-- A page element as seen by the Playwright driver: its ARIA role, its
accessible name, its rendered text, and the CSS selectors it matches. -/
structure Element where
  role : String
  accName : String
  textContent : String
  cssMatches : List String
deriving DecidableEq

/-- A page is the document-ordered list of its elements. -/
abbrev Page := List Element

/-- `needle` is a prefix of the second list. -/
def isPrefixL : List Char → List Char → Bool
  | [], _ => true
  | _ :: _, [] => false
  | a :: as, b :: bs => a == b && isPrefixL as bs

/-- `needle` occurs as a contiguous substring of the second list. -/
def containsSubL (needle : List Char) : List Char → Bool
  | [] => isPrefixL needle []
  | c :: cs => isPrefixL needle (c :: cs) || containsSubL needle cs

/-- Playwright `filter({ hasText })` semantics for a string argument:
case-insensitive substring search in the element's text. -/
def hasTextMatch (pat : String) (el : Element) : Bool :=
  containsSubL (pat.data.map Char.toLower) (el.textContent.data.map Char.toLower)

/-- Evaluation of a locator against a page: `page.locator(css)` matches
by selector, `getByRole` by role, `filter({ hasText })` by
case-insensitive substring of the text, and `nth(k)` keeps the k-th
match (nothing when fewer than k+1 matches). -/
def Locator.resolveOn (page : Page) : Locator → List Element
  | .selector css => page.filter (fun el => el.cssMatches.contains css)
  | .byRole r => page.filter (fun el => el.role = r)
  | .filterHasText l t => (l.resolveOn page).filter (fun el => hasTextMatch t el)
  | .nth l k => ((l.resolveOn page).drop k).take 1

/-- One call against a `RefCacheManager` instance (the class methods,
plus a `resolveRef` call reading the instance's table). -/
inductive CacheOp where
  | updateRefs (m : RefMap)
  | invalidate
  | get (refId : String)
  | isValid (refId : String)
  | getAvailable
  | getVersion
  | getRefMap
  | resolve (ref : String)
deriving DecidableEq

/-- The value returned by one cache operation. -/
inductive OpResult where
  | unit
  | refData (r : Option RefData)
  | bool (b : Bool)
  | strs (l : List String)
  | nat (n : Nat)
  | map (m : RefMap)
  | resolved (r : Except ResolveError Locator)

/-- Small-step semantics of the cache: each operation's return value and
the instance state after the call.  Only `updateRefs` and `invalidate`
assign to the private fields; every other method body contains no
assignment, so the state passes through unchanged. -/
def applyOp (c : RefCacheManager) : CacheOp → OpResult × RefCacheManager
  | .updateRefs m => (.unit, c.updateRefs m)
  | .invalidate => (.unit, c.invalidate)
  | .get r => (.refData (c.get r), c)
  | .isValid r => (.bool (c.isValid r), c)
  | .getAvailable => (.strs c.getAvailable, c)
  | .getVersion => (.nat c.getVersion, c)
  | .getRefMap => (.map c.getRefMap, c)
  | .resolve t => (.resolved (resolveRef t c.refs), c)

/-- The operations that assign to the cache's fields. -/
def CacheOp.isMutating : CacheOp → Bool
  | .updateRefs _ => true
  | .invalidate => true
  | _ => false

/-- The language of the token regex `^@?(e\d+)$` of
`src/utils/ref-resolver.ts`, stated directly: an optional `@`, then `e`,
then a non-empty digit string. -/
def refTokenSpec (s : String) : Prop :=
  ∃ d : String, d ≠ "" ∧ d.data.all Char.isDigit ∧
    (s = "e" ++ d ∨ s = "@e" ++ d)

/-- Fixed concrete descriptor used by witnesses and counterexamples. -/
def btnRefData : RefData :=
  { selector := "", role := "button" }

/-- A button whose accessible name and text are "Save All". -/
def saveAllButton : Element :=
  { role := "button", accName := "Save All", textContent := "Save All",
    cssMatches := [] }

/-- A button whose accessible name is exactly "Save" but whose text
content is empty (the name comes from an `aria-label`). -/
def saveButton : Element :=
  { role := "button", accName := "Save", textContent := "", cssMatches := [] }

/-- Descriptor capturing a button whose accessible name is "Save". -/
def saveRefData : RefData :=
  { selector := "", role := "button", name := some "Save" }

/- ## Helper lemmas -/

theorem lookupRef_eq_none_iff (m : RefMap) (r : String) :
    lookupRef m r = none ↔ containsRef m r = false := by
  induction m with
  | nil => simp [lookupRef, containsRef]
  | cons p rest ih =>
      obtain ⟨k, v⟩ := p
      by_cases h : k = r <;> simp [lookupRef, containsRef, h, ih]

theorem containsSubL_nil (hay : List Char) : containsSubL [] hay = true := by
  cases hay <;> simp [containsSubL, isPrefixL]

theorem hasTextMatch_empty (el : Element) : hasTextMatch "" el = true := by
  simp [hasTextMatch, containsSubL_nil]

theorem parseRefCore_eq_some_iff (cs l : List Char) :
    parseRefCore cs = some l ↔
      ∃ d ds, cs = 'e' :: d :: ds ∧ (d :: ds).all Char.isDigit = true
        ∧ l = cs := by
  match cs with
  | [] => simp [parseRefCore]
  | [c] => simp [parseRefCore]
  | c :: d :: ds =>
      by_cases h : c = 'e' ∧ (d :: ds).all Char.isDigit = true
      · obtain ⟨hc, hdig⟩ := h
        subst hc
        rw [parseRefCore, if_pos ⟨rfl, hdig⟩]
        constructor
        · intro hsome
          obtain rfl := Option.some.inj hsome
          exact ⟨d, ds, rfl, hdig, rfl⟩
        · rintro ⟨d', ds', hcs, hdig', rfl⟩
          rfl
      · rw [parseRefCore, if_neg h]
        constructor
        · intro hcon
          exact Option.noConfusion hcon
        · rintro ⟨d', ds', hcs, hdig', rfl⟩
          injection hcs with hc hrest
          subst hc
          exact absurd ⟨rfl, by rw [hrest]; exact hdig'⟩ h

theorem parseRef_isSome_iff (s : String) :
    (∃ k, parseRef s = some k) ↔ refTokenSpec s := by
  constructor
  · rintro ⟨k, hk⟩
    rw [parseRef, Option.map_eq_some'] at hk
    obtain ⟨l, hl, hkl⟩ := hk
    rw [parseRefCore_eq_some_iff] at hl
    obtain ⟨d, ds, hcs, hdig, hlcs⟩ := hl
    cases hs : s.data with
    | nil => rw [hs] at hcs; simp [stripAt] at hcs
    | cons c rest =>
        rw [hs] at hcs
        by_cases hc : c = '@'
        · rw [stripAt, if_pos hc] at hcs
          refine ⟨String.mk (d :: ds), ?_, by simpa using hdig, Or.inr ?_⟩
          · simp [String.ext_iff]
          · rw [String.ext_iff, String.data_append, hs, hc, hcs]
            rfl
        · rw [stripAt, if_neg hc] at hcs
          obtain ⟨hce, hrest⟩ := List.cons.injEq .. ▸ hcs
          refine ⟨String.mk (d :: ds), ?_, by simpa using hdig, Or.inl ?_⟩
          · simp [String.ext_iff]
          · rw [String.ext_iff, String.data_append, hs, hce, hrest]
            rfl
  · rintro ⟨d, hne, hdig, h | h⟩
    · cases hd : d.data with
      | nil => exact absurd (String.ext_iff.mpr (by simp [hd])) hne
      | cons x xs =>
          subst h
          refine ⟨String.mk ('e' :: x :: xs), ?_⟩
          rw [parseRef]
          have hdata : ("e" ++ d).data = 'e' :: x :: xs := by
            rw [String.data_append, hd]; rfl
          rw [hdata, stripAt, if_neg (by decide), parseRefCore,
            if_pos ⟨rfl, by rw [← hd]; simpa using hdig⟩]
          rfl
    · cases hd : d.data with
      | nil => exact absurd (String.ext_iff.mpr (by simp [hd])) hne
      | cons x xs =>
          subst h
          refine ⟨String.mk ('e' :: x :: xs), ?_⟩
          rw [parseRef]
          have hdata : ("@e" ++ d).data = '@' :: 'e' :: x :: xs := by
            rw [String.data_append, hd]; rfl
          rw [hdata, stripAt, if_pos rfl, parseRefCore,
            if_pos ⟨rfl, by rw [← hd]; simpa using hdig⟩]
          rfl

theorem parseRef_none_iff (s : String) :
    parseRef s = none ↔ ¬ refTokenSpec s := by
  rw [← parseRef_isSome_iff s]
  cases h : parseRef s <;> simp [h]

theorem parseRef_append_digits (d : String) (hne : d ≠ "")
    (hdig : d.data.all Char.isDigit = true) :
    parseRef ("e" ++ d) = some ("e" ++ d)
    ∧ parseRef ("@e" ++ d) = some ("e" ++ d) := by
  cases hd : d.data with
  | nil => exact absurd (String.ext_iff.mpr (by simp [hd])) hne
  | cons x xs =>
      have hmk : String.mk ('e' :: x :: xs) = "e" ++ d := by
        rw [String.ext_iff, String.data_append, hd]; rfl
      constructor
      · rw [parseRef]
        have hdata : ("e" ++ d).data = 'e' :: x :: xs := by
          rw [String.data_append, hd]; rfl
        rw [hdata, stripAt, if_neg (by decide), parseRefCore,
          if_pos ⟨rfl, by rw [← hd]; simpa using hdig⟩, Option.map_some']
        rw [hmk]
      · rw [parseRef]
        have hdata : ("@e" ++ d).data = '@' :: 'e' :: x :: xs := by
          rw [String.data_append, hd]; rfl
        rw [hdata, stripAt, if_pos rfl, parseRefCore,
          if_pos ⟨rfl, by rw [← hd]; simpa using hdig⟩, Option.map_some']
        rw [hmk]

theorem isInvalidFormatErr_iff (s : String) (m : RefMap) :
    isInvalidFormatErr (resolveRef s m) = true ↔ parseRef s = none := by
  cases h : parseRef s with
  | none => simp [resolveRef, h, isInvalidFormatErr]
  | some k =>
      cases h2 : lookupRef m k <;>
        simp [resolveRef, h, h2, isInvalidFormatErr]

/- ## Claim theorems -/

/-- Claim C10: for every string `r` and every cache state, `isValid r`
returns `true` exactly when `get r` returns a descriptor rather than
`null` — the validity check and the lookup never disagree. -/
theorem isValid_iff_get_ne_none (c : RefCacheManager) (r : String) :
    c.isValid r = true ↔ c.get r ≠ none := by
  rw [RefCacheManager.isValid, RefCacheManager.get]
  rw [Ne, lookupRef_eq_none_iff]
  simp

/-- Witness for C10 at a concrete cache state and ref. -/
theorem isValid_iff_get_ne_none_witness :
    RefCacheManager.isValid ⟨[("e1", btnRefData)], 1⟩ "e1" = true
    ∧ RefCacheManager.get ⟨[("e1", btnRefData)], 1⟩ "e1" ≠ none := by
  have h := isValid_iff_get_ne_none ⟨[("e1", btnRefData)], 1⟩ "e1"
  exact ⟨by decide, h.mp (by decide)⟩

/-- Claim C4: `updateRefs` always succeeds and increments `version` by
exactly one, `invalidate` resets `version` to 0, and no other operation
changes the version, so the version never decreases except at
`invalidate`. -/
theorem version_discipline (c : RefCacheManager) (m : RefMap) (op : CacheOp) :
    applyOp c (.updateRefs m)
      = (.unit, { refs := m, version := c.version + 1 })
    ∧ applyOp c .invalidate = (.unit, { refs := [], version := 0 })
    ∧ (op.isMutating = false → (applyOp c op).2.version = c.version)
    ∧ (op ≠ CacheOp.invalidate → c.version ≤ (applyOp c op).2.version) := by
  refine ⟨rfl, rfl, ?_, ?_⟩
  · intro h
    cases op <;>
      simp_all [applyOp, CacheOp.isMutating]
  · intro h
    cases op <;>
      simp_all [applyOp, CacheOp.isMutating, RefCacheManager.updateRefs,
        RefCacheManager.invalidate]

/-- Witness for C4 at a concrete state, table and read operation. -/
theorem version_discipline_witness :
    applyOp ⟨[], 5⟩ (.updateRefs [("e1", btnRefData)])
      = (.unit, ⟨[("e1", btnRefData)], 6⟩)
    ∧ (applyOp ⟨[], 5⟩ CacheOp.getVersion).2.version = 5
    ∧ 5 ≤ (applyOp ⟨[], 5⟩ CacheOp.getVersion).2.version := by
  have h := version_discipline ⟨[], 5⟩ [("e1", btnRefData)] CacheOp.getVersion
  exact ⟨h.1, h.2.2.1 (by decide), h.2.2.2 (by decide)⟩

/-- Claim C5: two successive table replacements leave exactly the second
table: `get` reads only from `T2`, and the state equals the state after
`replace(T2)` alone — full replacement, never a merge. -/
theorem replace_is_full_replacement (c : RefCacheManager)
    (T1 T2 : RefMap) (r : String) :
    ((c.updateRefs T1).updateRefs T2).get r = lookupRef T2 r
    ∧ ((c.updateRefs T1).updateRefs T2).refs = T2
    ∧ ((c.updateRefs T1).updateRefs T2).refs = (c.updateRefs T2).refs :=
  ⟨rfl, rfl, rfl⟩

/-- Claim C9: the read operations (`get`, `isValid`, `getAvailable`,
`getVersion`, `getRefMap`) and every `resolveRef` call — including both
failing paths — leave the cache's table and version unchanged. -/
theorem reads_leave_cache_unchanged (c : RefCacheManager) (op : CacheOp)
    (ref : String) (h : op.isMutating = false) :
    (applyOp c op).2 = c ∧ (applyOp c (.resolve ref)).2 = c := by
  constructor
  · cases op <;> simp_all [applyOp, CacheOp.isMutating]
  · rfl

/-- Witness for C9: a lookup and a malformed-token resolve leave a
concrete cache state intact. -/
theorem reads_leave_cache_unchanged_witness :
    (applyOp ⟨[("e1", btnRefData)], 3⟩ (.get "e1")).2
      = ⟨[("e1", btnRefData)], 3⟩
    ∧ (applyOp ⟨[("e1", btnRefData)], 3⟩ (.resolve "ref1")).2
      = ⟨[("e1", btnRefData)], 3⟩ :=
  reads_leave_cache_unchanged ⟨[("e1", btnRefData)], 3⟩ (.get "e1") "ref1"
    (by decide)

/-- Claim C3: after `invalidate()`, `getAvailable()` is empty, `get`
returns `none` for every previously valid ref, and `resolveRef` on any
previously valid token fails with `RefNotFound` whose message lists zero
available refs. -/
theorem invalidate_clears_everything (c : RefCacheManager)
    (r t refId : String) (hr : c.isValid r = true)
    (hp : parseRef t = some refId) (hv : c.isValid refId = true) :
    c.invalidate.getAvailable = []
    ∧ c.invalidate.get r = none
    ∧ resolveRef t c.invalidate.refs = .error (.refNotFound t [])
    ∧ (ResolveError.refNotFound t []).message
        = "Ref \"" ++ t ++ "\" not found. Available refs: " := by
  refine ⟨rfl, rfl, ?_, ?_⟩
  · simp [resolveRef, hp, RefCacheManager.invalidate, lookupRef, sortedKeys,
      keysOf, List.insertionSort]
  · simp [ResolveError.message, String.intercalate]

/-- Claim C2: `resolveRef` fails with `InvalidRefFormat` exactly for
tokens outside `^@?e\d+$` — in particular `"ref1"`, `"@1"`, `""` and
`"e"` — and for every digit string `d` the tokens `e<d>` and `@e<d>`
parse to the same bare key, which is looked up in the table, with
identical hit/miss behaviour. -/
theorem resolveRef_format_contract (m : RefMap) (s d : String)
    (hne : d ≠ "") (hdig : d.data.all Char.isDigit = true) :
    (isInvalidFormatErr (resolveRef s m) = true ↔ ¬ refTokenSpec s)
    ∧ isInvalidFormatErr (resolveRef "ref1" m) = true
    ∧ isInvalidFormatErr (resolveRef "@1" m) = true
    ∧ isInvalidFormatErr (resolveRef "" m) = true
    ∧ isInvalidFormatErr (resolveRef "e" m) = true
    ∧ parseRef ("e" ++ d) = some ("e" ++ d)
    ∧ parseRef ("@e" ++ d) = some ("e" ++ d)
    ∧ (∀ rd, lookupRef m ("e" ++ d) = some rd →
        resolveRef ("e" ++ d) m = .ok (locatorFromRef rd)
        ∧ resolveRef ("@e" ++ d) m = .ok (locatorFromRef rd))
    ∧ (lookupRef m ("e" ++ d) = none →
        resolveRef ("e" ++ d) m
          = .error (.refNotFound ("e" ++ d) (sortedKeys m))
        ∧ resolveRef ("@e" ++ d) m
          = .error (.refNotFound ("@e" ++ d) (sortedKeys m))) := by
  obtain ⟨hp1, hp2⟩ := parseRef_append_digits d hne hdig
  refine ⟨?_, ?_, ?_, ?_, ?_, hp1, hp2, ?_, ?_⟩
  · rw [isInvalidFormatErr_iff, parseRef_none_iff]
  · rfl
  · rfl
  · rfl
  · rfl
  · intro rd hrd
    constructor <;> simp [resolveRef, hp1, hp2, hrd]
  · intro hmiss
    constructor <;> simp [resolveRef, hp1, hp2, hmiss]

/-- Witness for C2 at `d = "1"` and a one-entry table: the malformed
token is rejected and `e1`/`@e1` resolve identically. -/
theorem resolveRef_format_contract_witness :
    isInvalidFormatErr (resolveRef "ref1" [("e1", btnRefData)]) = true
    ∧ parseRef ("@e" ++ "1") = some ("e" ++ "1")
    ∧ resolveRef ("e" ++ "1") [("e1", btnRefData)]
        = .ok (locatorFromRef btnRefData)
    ∧ resolveRef ("@e" ++ "1") [("e1", btnRefData)]
        = .ok (locatorFromRef btnRefData) := by
  obtain ⟨-, h1, -, -, -, -, h2, h3, -⟩ :=
    resolveRef_format_contract [("e1", btnRefData)] "ref1" "1"
      (by decide) (by decide)
  obtain ⟨h4, h5⟩ := h3 btnRefData (by decide)
  exact ⟨h1, h2, h4, h5⟩

/-- Witness for C3: a one-entry cache, invalidated; the stale token
`e1` fails with a message listing no refs. -/
theorem invalidate_clears_everything_witness :
    (RefCacheManager.invalidate ⟨[("e1", btnRefData)], 1⟩).getAvailable = []
    ∧ (RefCacheManager.invalidate ⟨[("e1", btnRefData)], 1⟩).get "e1" = none
    ∧ resolveRef "e1" (RefCacheManager.invalidate ⟨[("e1", btnRefData)], 1⟩).refs
        = .error (.refNotFound "e1" [])
    ∧ (ResolveError.refNotFound "e1" []).message
        = "Ref \"" ++ "e1" ++ "\" not found. Available refs: " :=
  invalidate_clears_everything ⟨[("e1", btnRefData)], 1⟩ "e1" "e1" "e1"
    (by decide) (by decide) (by decide)

theorem charListLe_total (a b : List Char) :
    charListLe a b = true ∨ charListLe b a = true := by
  induction a generalizing b with
  | nil => left; rfl
  | cons x xs ih =>
      cases b with
      | nil => right; rfl
      | cons y ys =>
          rcases Nat.lt_trichotomy x.toNat y.toNat with h | h | h
          · left; rw [charListLe, if_pos h]
          · rcases ih ys with h2 | h2
            · left
              rw [charListLe, if_neg (by omega), if_neg (by omega)]
              exact h2
            · right
              rw [charListLe, if_neg (by omega), if_neg (by omega)]
              exact h2
          · right; rw [charListLe, if_pos h]

theorem charListLe_trans (a b c : List Char) (hab : charListLe a b = true)
    (hbc : charListLe b c = true) : charListLe a c = true := by
  induction a generalizing b c with
  | nil => rfl
  | cons x xs ih =>
      cases b with
      | nil => simp [charListLe] at hab
      | cons y ys =>
          cases c with
          | nil => simp [charListLe] at hbc
          | cons z zs =>
              by_cases hxy : x.toNat < y.toNat
              · by_cases hyz : y.toNat < z.toNat
                · rw [charListLe, if_pos (by omega)]
                · by_cases hzy : z.toNat < y.toNat
                  · rw [charListLe, if_neg hyz, if_pos hzy] at hbc
                    simp at hbc
                  · rw [charListLe, if_pos (by omega)]
              · by_cases hyx : y.toNat < x.toNat
                · rw [charListLe, if_neg hxy, if_pos hyx] at hab
                  simp at hab
                · rw [charListLe, if_neg hxy, if_neg hyx] at hab
                  by_cases hyz : y.toNat < z.toNat
                  · rw [charListLe, if_pos (by omega)]
                  · by_cases hzy : z.toNat < y.toNat
                    · rw [charListLe, if_neg hyz, if_pos hzy] at hbc
                      simp at hbc
                    · rw [charListLe, if_neg hyz, if_neg hzy] at hbc
                      rw [charListLe, if_neg (by omega), if_neg (by omega)]
                      exact ih ys zs hab hbc

theorem strLe_total (a b : String) : strLe a b = true ∨ strLe b a = true :=
  charListLe_total a.data b.data

theorem strLe_trans (a b c : String) (hab : strLe a b = true)
    (hbc : strLe b c = true) : strLe a c = true :=
  charListLe_trans a.data b.data c.data hab hbc

/-- Claim C7 counterexample: for the table with keys inserted in the
order `e2`, `e10`, the miss message enumerates `e10, e2` — the
lexicographically sorted order, not the insertion order `e2, e10`. -/
theorem refNotFound_not_insertion_order :
    resolveRef "e99" [("e2", btnRefData), ("e10", btnRefData)]
      = .error (.refNotFound "e99" ["e10", "e2"])
    ∧ keysOf [("e2", btnRefData), ("e10", btnRefData)] = ["e2", "e10"]
    ∧ (["e10", "e2"] : List String) ≠ ["e2", "e10"]
    ∧ (ResolveError.refNotFound "e99" ["e10", "e2"]).message
        = "Ref \"e99\" not found. Available refs: e10, e2" :=
  ⟨rfl, rfl, by decide, by decide⟩

/-- Claim C7 (amended): a well-formed but absent token fails with
`RefNotFound`; the message enumerates the available ref ids in
lexicographically sorted order (the JS default sort), truncated to the
first 10, with an ellipsis indicator when more than 10 are available. -/
theorem refNotFound_message_contract (m : RefMap) (ref refId : String)
    (hp : parseRef ref = some refId) (hl : lookupRef m refId = none) :
    resolveRef ref m = .error (.refNotFound ref (sortedKeys m))
    ∧ (sortedKeys m).Perm (keysOf m)
    ∧ List.Sorted (fun a b => strLe a b = true) (sortedKeys m)
    ∧ (ResolveError.refNotFound ref (sortedKeys m)).message
        = "Ref \"" ++ ref ++ "\" not found. Available refs: "
          ++ String.intercalate ", " ((sortedKeys m).take 10)
          ++ (if (sortedKeys m).length > 10 then "..." else "") := by
  refine ⟨by simp [resolveRef, hp, hl], List.perm_insertionSort _ _, ?_, rfl⟩
  haveI : IsTotal String (fun a b => strLe a b = true) := ⟨strLe_total⟩
  haveI : IsTrans String (fun a b => strLe a b = true) := ⟨strLe_trans⟩
  exact List.sorted_insertionSort _ _

/-- Witness for C7's amended theorem at a one-entry table. -/
theorem refNotFound_message_contract_witness :
    resolveRef "e7" [("e1", btnRefData)]
      = .error (.refNotFound "e7" (sortedKeys [("e1", btnRefData)]))
    ∧ (sortedKeys [("e1", btnRefData)]).Perm (keysOf [("e1", btnRefData)])
    ∧ List.Sorted (fun a b => strLe a b = true)
        (sortedKeys [("e1", btnRefData)])
    ∧ (ResolveError.refNotFound "e7" (sortedKeys [("e1", btnRefData)])).message
        = "Ref \"" ++ "e7" ++ "\" not found. Available refs: "
          ++ String.intercalate ", " ((sortedKeys [("e1", btnRefData)]).take 10)
          ++ (if (sortedKeys [("e1", btnRefData)]).length > 10 then "..."
              else "") :=
  refNotFound_message_contract [("e1", btnRefData)] "e7" "e7"
    (by decide) (by decide)

/-- Claim C8 counterexample: with `e1` in the table but an empty page,
the driver matches zero elements yet `resolveRef` succeeds with the
constructed locator instead of failing with `RefNotFound`. -/
theorem resolveRef_ok_despite_zero_matches :
    resolveRef "e1" [("e1", btnRefData)] = .ok (Locator.byRole "button")
    ∧ (Locator.byRole "button").resolveOn [] = []
    ∧ isRefNotFoundErr (resolveRef "e1" [("e1", btnRefData)]) = false :=
  ⟨rfl, rfl, rfl⟩

/-- Claim C8 (amended): for every well-formed token whose key is present
in the table, `resolveRef` returns the constructed locator
unconditionally; the driver's match count is never consulted, so a
zero-match driver result does not produce `RefNotFound` at resolve
time. -/
theorem resolveRef_hit_returns_locator (m : RefMap) (ref refId : String)
    (rd : RefData) (hp : parseRef ref = some refId)
    (hl : lookupRef m refId = some rd) :
    resolveRef ref m = .ok (locatorFromRef rd) := by
  simp [resolveRef, hp, hl]

/-- Witness for C8's amended theorem. -/
theorem resolveRef_hit_returns_locator_witness :
    resolveRef "e2" [("e2", saveRefData)]
      = .ok (locatorFromRef saveRefData) :=
  resolveRef_hit_returns_locator [("e2", saveRefData)] "e2" "e2" saveRefData
    (by decide) (by decide)

/-- Claim C6: a sentinel-role (`clickable`/`focusable`) descriptor
resolves the stored structural selector directly, with the `name` and
`nth` fields having no effect; any other descriptor resolves to the
role query, filtered by the stored name when one is given, with the
zero-based `nth` match selected when `nth` is present. -/
theorem locatorFromRef_structure (d : RefData) (page : Page) :
    (isSentinelRole d.role = true →
      (∀ n k, locatorFromRef { d with name := n, nth := k }
          = .selector d.selector)
      ∧ (locatorFromRef d).resolveOn page
          = page.filter (fun el => el.cssMatches.contains d.selector))
    ∧ (isSentinelRole d.role = false →
      (locatorFromRef d).resolveOn page
        = (let roleMatches := page.filter (fun el => el.role = d.role)
           let named :=
             match d.name with
             | some n => roleMatches.filter (fun el => hasTextMatch n el)
             | none => roleMatches
           match d.nth with
           | some k => (named.drop k).take 1
           | none => named)) := by
  have hid : ∀ l : List Element,
      l.filter (fun el => hasTextMatch "" el) = l := fun l =>
    List.filter_eq_self.mpr (fun a _ => hasTextMatch_empty a)
  constructor
  · intro hsent
    constructor
    · intro n k
      simp [locatorFromRef, hsent]
    · simp [locatorFromRef, hsent, Locator.resolveOn]
  · intro hsent
    rw [locatorFromRef, if_neg (by simp [hsent])]
    cases hn : d.name with
    | none => cases hk : d.nth <;> simp [Locator.resolveOn, hk]
    | some n =>
        by_cases hempty : n = ""
        · subst hempty
          cases hk : d.nth <;> simp [Locator.resolveOn, hk, hid]
        · cases hk : d.nth <;> simp [Locator.resolveOn, hk, hempty]

/-- Witness for C6: a cursor-interactive descriptor resolves by raw
selector whatever its name and ordinal; a semantic descriptor on the
empty page matches nothing. -/
theorem locatorFromRef_structure_witness :
    locatorFromRef { selector := "#x", role := "clickable",
                     name := some "ignored", nth := some 5 }
      = Locator.selector "#x"
    ∧ (locatorFromRef saveRefData).resolveOn [] = [] := by
  have h1 := (locatorFromRef_structure
      { selector := "#x", role := "clickable" } []).1 (by decide)
  have h2 := (locatorFromRef_structure saveRefData []).2 (by decide)
  exact ⟨h1.1 (some "ignored") (some 5), by rw [h2]; rfl⟩

/-- Claim C1 (code bug): the resolver filters semantic lookups with
Playwright `hasText` — a case-insensitive substring test on the text
content — instead of the exact accessible-name equality the
specification requires.  For the stored name "Save" it selects the
button whose accessible name is "Save All" and drops the button whose
accessible name is exactly "Save"; the exact-name filter (stated from
the specification in the second conjunct) selects the latter. -/
theorem nameFilter_substring_not_exact :
    (locatorFromRef saveRefData).resolveOn [saveAllButton, saveButton]
      = [saveAllButton]
    ∧ (([saveAllButton, saveButton].filter
          (fun el => el.role == "button")).filter
          (fun el => el.accName == "Save")) = [saveButton]
    ∧ saveAllButton.accName ≠ "Save"
    ∧ saveRefData.name = some "Save"
    ∧ ([saveAllButton] : List Element) ≠ [saveButton] :=
  ⟨by decide, by decide, by decide, rfl, by decide⟩

end AgentBrowser
